import Mathlib

set_option maxRecDepth 4000

/-!
Shallow embedding of the signal synthesis and spectral estimation engine of
the Live Signal Lab repository: the `SignalGenerator` class (modulation
generators, Box-Muller noise, direct DFT) and the `SignalAnalyzer` class
(bandwidth and SNR estimation heuristics), together with theorems checking
the specification's claims about them.

Conventions of the embedding:
* JS numbers are modelled as real numbers; the sampling parameters
  (`sampleRate`, `duration`, `symbolRate`), which the reference keeps
  integer-valued (44100 Hz, 1 s, integer baud), are modelled as naturals so
  that the `Math.floor` divisions of the code become `Nat` division.
* `Math.random()` draws are supplied by oracles: `rnd : ℕ → ℝ` gives the
  draw used for symbol `k`, and `u : ℕ → ℝ × ℝ` gives the two uniform
  draws consumed by the Box-Muller step for sample `i`.
* A separate finiteness model (`JsVal` below) tracks which JS computations
  produce finite numbers, for the claims about NaN/Infinity propagation.
-/

noncomputable section

open Classical

/-- Parameter state of `SignalGenerator`; the constructor defaults are `g0`
below.  Field order: sampleRate, duration, carrierFreq, symbolRate, snr,
modulationIndex, messageFreq, frequencyDeviation. -/
structure GenParams where
  sampleRate : ℕ
  duration : ℕ
  carrierFreq : ℝ
  symbolRate : ℕ
  snr : ℝ
  modulationIndex : ℝ
  messageFreq : ℝ
  frequencyDeviation : ℝ

/-- One constellation point, `{x, y}` in the code. -/
structure ConstPoint where
  x : ℝ
  y : ℝ

/-- Result shape of every generator method: time array, real and imaginary
sample arrays, and an optional constellation (null for analog kinds). -/
structure GeneratedSignal where
  time : List ℝ
  realSignal : List ℝ
  imagSignal : List ℝ
  constellation : Option (List ConstPoint)

/-- Code `this.numSamples = this.sampleRate * this.duration`. -/
def numSamples (g : GenParams) : ℕ := g.sampleRate * g.duration

/-- Code `samplesPerSymbol = Math.floor(this.sampleRate / this.symbolRate)`. -/
def samplesPerSymbol (g : GenParams) : ℕ := g.sampleRate / g.symbolRate

/-- Code `numSymbols = Math.floor(this.numSamples / samplesPerSymbol)`. -/
def numSymbols (g : GenParams) : ℕ := numSamples g / samplesPerSymbol g

/-- Code `timeArray[i] = i / this.sampleRate`. -/
def tAt (g : GenParams) (i : ℕ) : ℝ := (i : ℝ) / (g.sampleRate : ℝ)

/-- Code `generateTimeArray()`. -/
def timeArray (g : GenParams) : List ℝ := (List.range (numSamples g)).map (tAt g)

/-- Code `addNoise(signal, snrDb)`: measures the signal power, derives the noise
amplitude from the requested SNR and adds Box-Muller Gaussian noise; `u i`
supplies the two uniform draws consumed for sample `i`. -/
def addNoise (signal : List ℝ) (snrDb : ℝ) (u : ℕ → ℝ × ℝ) : List ℝ :=
  let signalPower := signal.foldl (fun acc v => acc + v * v) 0 / (signal.length : ℝ)
  let snrLinear := (10 : ℝ) ^ (snrDb / 10)
  let noisePower := signalPower / snrLinear
  let noiseAmplitude := Real.sqrt noisePower
  (List.range signal.length).map (fun i =>
    signal.getD i 0 +
      noiseAmplitude * Real.sqrt (-2 * Real.log (u i).1) * Real.cos (2 * Real.pi * (u i).2))

/-- Code `generateAM()`: `s[i] = (1 + μ·m[i])·cos(2π f_c t_i)` plus noise; the
imaginary part is a fresh all-zero array. -/
def generateAM (g : GenParams) (u : ℕ → ℝ × ℝ) : GeneratedSignal :=
  let t := timeArray g
  let message := t.map (fun x => Real.cos (2 * Real.pi * g.messageFreq * x))
  let carrier := t.map (fun x => Real.cos (2 * Real.pi * g.carrierFreq * x))
  let modulated := (List.range (numSamples g)).map
    (fun i => (1 + g.modulationIndex * message.getD i 0) * carrier.getD i 0)
  ⟨t, addNoise modulated g.snr u, List.replicate (numSamples g) 0, none⟩

/-- Running integral of the FM message: `integratedMessage` after processing
sample `i`, accumulated with `dt = 1 / sampleRate`. -/
def fmIntegral (g : GenParams) (i : ℕ) : ℝ :=
  ∑ j ∈ Finset.range (i + 1),
    Real.cos (2 * Real.pi * g.messageFreq * tAt g j) * (1 / (g.sampleRate : ℝ))

/-- Code `generateFM()`: `s[i] = cos(2π f_c t_i + 2π Δf μ ∫m)` plus noise. -/
def generateFM (g : GenParams) (u : ℕ → ℝ × ℝ) : GeneratedSignal :=
  let modulated := (List.range (numSamples g)).map (fun i =>
    Real.cos (2 * Real.pi * g.carrierFreq * tAt g i +
      2 * Real.pi * g.frequencyDeviation * g.modulationIndex * fmIntegral g i))
  ⟨timeArray g, addNoise modulated g.snr u, List.replicate (numSamples g) 0, none⟩

/-- BPSK data bit for symbol `k`: `Math.random() > 0.5 ? 1 : -1`. -/
def bpskBit (rnd : ℕ → ℝ) (k : ℕ) : ℝ := if rnd k > 0.5 then 1 else -1

/-- The pre-noise BPSK waveform.  For samples whose symbol index reaches past
the bits array the code substitutes the constant `1`. -/
def bpskModulated (g : GenParams) (rnd : ℕ → ℝ) : List ℝ :=
  (List.range (numSamples g)).map (fun i =>
    let bit := if i / samplesPerSymbol g < numSymbols g
      then bpskBit rnd (i / samplesPerSymbol g) else 1
    bit * Real.cos (2 * Real.pi * g.carrierFreq * tAt g i))

/-- Constellation points pushed by the BPSK loop: one per sample index `i`
with `i % samplesPerSymbol == 0` and a defined symbol. -/
def bpskConstellation (g : GenParams) (rnd : ℕ → ℝ) : List ConstPoint :=
  ((List.range (numSamples g)).filter
      (fun i => i % samplesPerSymbol g = 0 ∧ i / samplesPerSymbol g < numSymbols g)).map
    (fun i => ⟨bpskBit rnd (i / samplesPerSymbol g), 0⟩)

/-- Code `generateBPSK()`; the imaginary array is filled with `0` sample by
sample inside the loop. -/
def generateBPSK (g : GenParams) (u : ℕ → ℝ × ℝ) (rnd : ℕ → ℝ) : GeneratedSignal :=
  ⟨timeArray g, addNoise (bpskModulated g rnd) g.snr u,
    (List.range (numSamples g)).map (fun _ => 0), some (bpskConstellation g rnd)⟩

/-- QPSK symbol for a dibit draw: `Math.floor(Math.random() * 4)` selects one
of the four unit-circle points.  The JS switch has no default branch; draws
in `[0,1)` always hit one of the four cases, the final branch is the value an
out-of-range draw would never reach. -/
def qpskSymbol (rnd : ℕ → ℝ) (k : ℕ) : ℝ × ℝ :=
  let d : ℤ := ⌊rnd k * 4⌋
  if d = 0 then (1 / Real.sqrt 2, 1 / Real.sqrt 2)
  else if d = 1 then (-(1 / Real.sqrt 2), 1 / Real.sqrt 2)
  else if d = 2 then (-(1 / Real.sqrt 2), -(1 / Real.sqrt 2))
  else if d = 3 then (1 / Real.sqrt 2, -(1 / Real.sqrt 2))
  else (0, 0)

/-- Symbol used at sample `i`: the drawn symbol while defined, else the fixed
fallback `{i: 1/√2, q: 1/√2}` from the code. -/
def qpskSymAt (g : GenParams) (rnd : ℕ → ℝ) (i : ℕ) : ℝ × ℝ :=
  if i / samplesPerSymbol g < numSymbols g then qpskSymbol rnd (i / samplesPerSymbol g)
  else (1 / Real.sqrt 2, 1 / Real.sqrt 2)

/-- Code `modulatedReal` of the QPSK loop. -/
def qpskReal (g : GenParams) (rnd : ℕ → ℝ) : List ℝ :=
  (List.range (numSamples g)).map (fun i =>
    (qpskSymAt g rnd i).1 * Real.cos (2 * Real.pi * g.carrierFreq * tAt g i))

/-- Code `modulatedImag` of the QPSK loop. -/
def qpskImag (g : GenParams) (rnd : ℕ → ℝ) : List ℝ :=
  (List.range (numSamples g)).map (fun i =>
    (qpskSymAt g rnd i).2 * Real.sin (2 * Real.pi * g.carrierFreq * tAt g i))

/-- Constellation points pushed by the QPSK loop. -/
def qpskConstellation (g : GenParams) (rnd : ℕ → ℝ) : List ConstPoint :=
  ((List.range (numSamples g)).filter
      (fun i => i % samplesPerSymbol g = 0 ∧ i / samplesPerSymbol g < numSymbols g)).map
    (fun i => ⟨(qpskSymbol rnd (i / samplesPerSymbol g)).1,
      (qpskSymbol rnd (i / samplesPerSymbol g)).2⟩)

/-- Code `generateQPSK()`: the transmitted waveform is `I-component − Q-component`
and the returned imaginary array is the raw `modulatedImag`. -/
def generateQPSK (g : GenParams) (u : ℕ → ℝ × ℝ) (rnd : ℕ → ℝ) : GeneratedSignal :=
  ⟨timeArray g,
    addNoise (List.zipWith (fun a b => a - b) (qpskReal g rnd) (qpskImag g rnd)) g.snr u,
    qpskImag g rnd, some (qpskConstellation g rnd)⟩

/-- The pre-noise FSK waveform: frequency `f_c + Δf` for a 1-bit
(`Math.random() > 0.5`), `f_c − Δf` for a 0-bit; samples past the bits array
use the constant bit `0` of the code. -/
def fskModulated (g : GenParams) (rnd : ℕ → ℝ) : List ℝ :=
  (List.range (numSamples g)).map (fun i =>
    let bitIsOne := if i / samplesPerSymbol g < numSymbols g
      then rnd (i / samplesPerSymbol g) > 0.5 else False
    Real.cos (2 * Real.pi *
      (if bitIsOne then g.carrierFreq + g.frequencyDeviation
        else g.carrierFreq - g.frequencyDeviation) * tAt g i))

/-- Constellation points pushed by the FSK loop (`x` records the bit). -/
def fskConstellation (g : GenParams) (rnd : ℕ → ℝ) : List ConstPoint :=
  ((List.range (numSamples g)).filter
      (fun i => i % samplesPerSymbol g = 0 ∧ i / samplesPerSymbol g < numSymbols g)).map
    (fun i => ⟨if rnd (i / samplesPerSymbol g) > 0.5 then 1 else -1, 0⟩)

/-- Code `generateFSK()`. -/
def generateFSK (g : GenParams) (u : ℕ → ℝ × ℝ) (rnd : ℕ → ℝ) : GeneratedSignal :=
  ⟨timeArray g, addNoise (fskModulated g rnd) g.snr u,
    List.replicate (numSamples g) 0, some (fskConstellation g rnd)⟩

/-- Code `generateVoiceLikeSignal` at sample `i`: weighted sum of four
harmonically related sinusoids. -/
def voiceAt (g : GenParams) (i : ℕ) : ℝ :=
  0.5 * Real.sin (2 * Real.pi * g.messageFreq * tAt g i) +
    0.3 * Real.sin (2 * Real.pi * (g.messageFreq * 1.5) * tAt g i) +
    0.15 * Real.sin (2 * Real.pi * (g.messageFreq * 2.2) * tAt g i) +
    0.05 * Real.sin (2 * Real.pi * (g.messageFreq * 3.7) * tAt g i)

/-- The voice-like message array. -/
def voiceSignal (g : GenParams) : List ℝ := (List.range (numSamples g)).map (voiceAt g)

/-- Code `approximateHilbertTransform(signal)`: `0.5·(signal[i] − signal[i−2])`
for `i ≥ 3`.  The JS code leaves indices `0..2` unset (`undefined`); this
all-real model writes `0` there — the finiteness model `hilbertJs` below
keeps the actual unset slots. -/
def approximateHilbertTransform (signal : List ℝ) : List ℝ :=
  (List.range signal.length).map (fun i =>
    if 3 ≤ i then 0.5 * (signal.getD i 0 - signal.getD (i - 2) 0) else 0)

/-- Shared SSB-family waveform: `m[i]·cos(2π f_c t_i) + sign·ĥ[i]·sin(2π f_c t_i)`
with `sign = -1` giving the LSB method's subtraction and `sign = 1` the USB
method's addition. -/
def ssbModulated (g : GenParams) (sign : ℝ) : List ℝ :=
  let message := voiceSignal g
  let hilbertMessage := approximateHilbertTransform message
  (List.range (numSamples g)).map (fun i =>
    message.getD i 0 * Real.cos (2 * Real.pi * g.carrierFreq * tAt g i) +
      sign * (hilbertMessage.getD i 0 * Real.sin (2 * Real.pi * g.carrierFreq * tAt g i)))

/-- Code `generateLSB()`; the imaginary slot stores the Hilbert transform. -/
def generateLSB (g : GenParams) (u : ℕ → ℝ × ℝ) : GeneratedSignal :=
  ⟨timeArray g, addNoise (ssbModulated g (-1)) g.snr u,
    approximateHilbertTransform (voiceSignal g), none⟩

/-- Code `generateUSB()`. -/
def generateUSB (g : GenParams) (u : ℕ → ℝ × ℝ) : GeneratedSignal :=
  ⟨timeArray g, addNoise (ssbModulated g 1) g.snr u,
    approximateHilbertTransform (voiceSignal g), none⟩

/-- Code `generateSSB(isLSB)`. -/
def generateSSB (g : GenParams) (u : ℕ → ℝ × ℝ) (isLSB : Bool) : GeneratedSignal :=
  ⟨timeArray g, addNoise (ssbModulated g (if isLSB then -1 else 1)) g.snr u,
    approximateHilbertTransform (voiceSignal g), none⟩

/-- Code `generateSignal(modulationType)`: string dispatch; the default branch of
the switch falls back to `generateAM()`. -/
def generateSignal (g : GenParams) (u : ℕ → ℝ × ℝ) (rnd : ℕ → ℝ)
    (modulationType : String) : GeneratedSignal :=
  if modulationType = "am" then generateAM g u
  else if modulationType = "fm" then generateFM g u
  else if modulationType = "bpsk" then generateBPSK g u rnd
  else if modulationType = "qpsk" then generateQPSK g u rnd
  else if modulationType = "fsk" then generateFSK g u rnd
  else if modulationType = "lsb" then generateLSB g u
  else if modulationType = "usb" then generateUSB g u
  else if modulationType = "ssb" then generateSSB g u false
  else generateAM g u

/-- Code `fftSize = 1024` of `computeFFT`. -/
def fftSize : ℕ := 1024

/-- The `fft` window array of `computeFFT`: after `fill(0)`, entry `i` is set
to `signal[i * downsampleFactor]` whenever that index is in range, with
`downsampleFactor = Math.floor(signal.length / fftSize)`. -/
def fftWindow (signal : List ℝ) : List ℝ :=
  let downsampleFactor := signal.length / fftSize
  (List.range fftSize).map (fun i =>
    if i * downsampleFactor < signal.length then signal.getD (i * downsampleFactor) 0 else 0)

/-- Result shape of `computeFFT`. -/
structure FFTData where
  magnitude : List ℝ
  frequencies : List ℝ

/-- Magnitude of DFT bin `k` over the window `w`: the inner loop accumulates
`real += w[n]·cos(angle)` and `imag += w[n]·sin(angle)` with
`angle = -2πkn/fftSize`, then `sqrt(real² + imag²)/fftSize`. -/
def dftMagnitudeAt (w : List ℝ) (k : ℕ) : ℝ :=
  Real.sqrt
    ((∑ n ∈ Finset.range fftSize,
        w.getD n 0 * Real.cos (-2 * Real.pi * (k : ℝ) * (n : ℝ) / (fftSize : ℝ))) ^ 2 +
      (∑ n ∈ Finset.range fftSize,
        w.getD n 0 * Real.sin (-2 * Real.pi * (k : ℝ) * (n : ℝ) / (fftSize : ℝ))) ^ 2) /
    (fftSize : ℝ)

/-- Code `frequencies[k] = k * this.sampleRate / fftSize`. -/
def freqAt (g : GenParams) (k : ℕ) : ℝ := (k : ℝ) * (g.sampleRate : ℝ) / (fftSize : ℝ)

/-- Code `computeFFT(signal)`: direct DFT over the window, one magnitude and one
frequency per bin `k < fftSize/2`. -/
def computeFFT (g : GenParams) (signal : List ℝ) : FFTData :=
  ⟨(List.range (fftSize / 2)).map (dftMagnitudeAt (fftWindow signal)),
    (List.range (fftSize / 2)).map (freqAt g)⟩

/-- JS `x || d` for a number already known to be present: keeps `x` unless it
is falsy (`0`). -/
def jsOr (x d : ℝ) : ℝ := if x = 0 then d else x

/-- The switch of `estimateBandwidth`, producing the starting "theoretical"
bandwidth.  Note that the analyzer only ever receives the `symbolRate`
parameter; the `100`s are hardcoded in the code. -/
def theoreticalBandwidth (modulationType : String) (symbolRate : ℝ) : ℝ :=
  if modulationType = "am" then 2 * jsOr symbolRate 100
  else if modulationType = "fm" then 2 * (100 + jsOr symbolRate 100)
  else if modulationType = "bpsk" ∨ modulationType = "qpsk" then symbolRate
  else if modulationType = "fsk" then 2 * 100 + symbolRate
  else if modulationType = "lsb" ∨ modulationType = "usb" ∨ modulationType = "ssb" then
    jsOr symbolRate 100
  else jsOr symbolRate 100

/-- Code `Math.max(...fftData.magnitude)` for a nonempty magnitude array (the only
shape the code ever passes). -/
def peakMagnitude (fft : FFTData) : ℝ := fft.magnitude.foldl max (fft.magnitude.getD 0 0)

/-- The min/max scan of `estimateBandwidth`: both accumulators start at
`frequencies[0]` and absorb `frequencies[i]` for every bin whose magnitude
exceeds the threshold. -/
def bandLimits (fft : FFTData) (threshold : ℝ) : ℝ × ℝ :=
  (List.range fft.magnitude.length).foldl
    (fun mm i =>
      if fft.magnitude.getD i 0 > threshold then
        (min mm.1 (fft.frequencies.getD i 0), max mm.2 (fft.frequencies.getD i 0))
      else mm)
    (fft.frequencies.getD 0 0, fft.frequencies.getD 0 0)

/-- Code `estimateBandwidth(fftData, modulationType, symbolRate)`: theoretical
formula, refined by the measured span when that span is positive and below
half of the last bin frequency. -/
def estimateBandwidth (fftData : Option FFTData) (modulationType : String)
    (symbolRate : ℝ) : ℝ :=
  let bandwidth := theoreticalBandwidth modulationType symbolRate
  match fftData with
  | none => bandwidth
  | some fft =>
    let threshold := peakMagnitude fft / 10
    let mm := bandLimits fft threshold
    let measuredBandwidth := mm.2 - mm.1
    if measuredBandwidth > 0 ∧
        measuredBandwidth < fft.frequencies.getD (fft.frequencies.length - 1) 0 / 2 then
      measuredBandwidth
    else bandwidth

/-- Code `reduce((sum, val) => sum + val*val, 0)`. -/
def sumSquares (l : List ℝ) : ℝ := l.foldl (fun acc v => acc + v * v) 0

/-- The residual `signal[i] − (signal[i−4]+signal[i−2]+signal[i]+signal[i+2]+signal[i+4])/5`. -/
def residualAt (signal : List ℝ) (i : ℕ) : ℝ :=
  signal.getD i 0 -
    (signal.getD (i - 4) 0 + signal.getD (i - 2) 0 + signal.getD i 0 +
      signal.getD (i + 2) 0 + signal.getD (i + 4) 0) / 5

/-- The `detrended` array of `estimateSnr`: the JS code sets only indices
`4 ≤ i < length − 4` of a `new Array(length)`; the unset slots are skipped by
`reduce` (contributing nothing to the sum) while still counted by `.length`,
so they are modelled as zeros here. -/
def detrended (signal : List ℝ) : List ℝ :=
  (List.range signal.length).map (fun i =>
    if 4 ≤ i ∧ i < signal.length - 4 then residualAt signal i else 0)

/-- Code `estimateSnr(signal)`: `20·log10(rms(signal)/(rms-like residual + 1e-10))`
clamped to `[0, 30]`. -/
def estimateSnr (signal : List ℝ) : ℝ :=
  let signalPower := sumSquares signal / (signal.length : ℝ)
  let signalRms := Real.sqrt signalPower
  let noisePower := sumSquares (detrended signal) / ((detrended signal).length : ℝ)
  let noiseRms := Real.sqrt noisePower
  let snrDb := 20 * Real.logb 10 (signalRms / (noiseRms + 1e-10))
  max 0 (min 30 snrDb)

/-- Argument shape of `updateParameters`: each field is the parsed value of a
form field.  `none` models a missing field or a NaN parse result, `some 0`
an explicit zero; all of those are falsy in JS. -/
structure UpdateParams where
  carrierFreq : Option ℝ
  symbolRate : Option ℕ
  snr : Option ℝ
  modulationIndex : Option ℝ
  messageFreq : Option ℝ
  frequencyDeviation : Option ℝ

/-- JS `params.x || this.x` for a possibly-missing numeric field. -/
def jsOrElse (v : Option ℝ) (fallback : ℝ) : ℝ :=
  match v with
  | none => fallback
  | some x => if x = 0 then fallback else x

/-- Code `jsOrElse` at natural-valued fields. -/
def jsOrElseNat (v : Option ℕ) (fallback : ℕ) : ℕ :=
  match v with
  | none => fallback
  | some x => if x = 0 then fallback else x

/-- Code `updateParameters(params)`: every stored field is replaced by
`params.field || this.field`; `sampleRate` and `duration` are not touched. -/
def updateParameters (g : GenParams) (p : UpdateParams) : GenParams :=
  ⟨g.sampleRate, g.duration,
    jsOrElse p.carrierFreq g.carrierFreq,
    jsOrElseNat p.symbolRate g.symbolRate,
    jsOrElse p.snr g.snr,
    jsOrElse p.modulationIndex g.modulationIndex,
    jsOrElse p.messageFreq g.messageFreq,
    jsOrElse p.frequencyDeviation g.frequencyDeviation⟩

/-!
Finiteness model.  `JsVal` tracks whether a JS double computation yields a
finite number: `some x` is the finite value `x`, `none` stands for NaN, ±∞
or an `undefined` array slot.  Every arithmetic operation of the code maps
non-finite operands to non-finite results (there is no comparison, `min`,
`max` or `0⁰`-style operation on the paths modelled here that could turn a
non-finite intermediate back into a finite number), so propagating `none`
strictly is a sound model of "the result is not a finite number".
-/

/-- A JS double that is either a finite real or non-finite/undefined. -/
def JsVal : Type := Option ℝ

/-- Addition on `JsVal`. -/
def jadd : JsVal → JsVal → JsVal
  | some a, some b => some (a + b)
  | _, _ => none

/-- Subtraction on `JsVal`. -/
def jsub : JsVal → JsVal → JsVal
  | some a, some b => some (a - b)
  | _, _ => none

/-- Multiplication on `JsVal` (note `0 · ∞ = NaN`, so `none` absorbs). -/
def jmul : JsVal → JsVal → JsVal
  | some a, some b => some (a * b)
  | _, _ => none

/-- Division on `JsVal`: division by zero gives ±∞ or NaN. -/
def jdiv : JsVal → JsVal → JsVal
  | some a, some b => if b = 0 then none else some (a / b)
  | _, _ => none

/-- Code `Math.log` on `JsVal`: `log 0 = -∞` and `log` of a negative is NaN. -/
def jlog : JsVal → JsVal
  | some a => if 0 < a then some (Real.log a) else none
  | none => none

/-- Code `Math.sqrt` on `JsVal`: the square root of a negative is NaN. -/
def jsqrt : JsVal → JsVal
  | some a => if 0 ≤ a then some (Real.sqrt a) else none
  | none => none

/-- Code `Math.cos` on `JsVal`: `cos` of ±∞ or NaN is NaN. -/
def jcos : JsVal → JsVal
  | some a => some (Real.cos a)
  | none => none

/-- Code `Math.sin` on `JsVal`. -/
def jsin : JsVal → JsVal
  | some a => some (Real.sin a)
  | none => none

/-- Code `addNoise` in the finiteness model, with the same structure as the code:
the measured signal power feeds the noise amplitude, and each output sample
adds `amplitude · sqrt(-2 ln u1) · cos(2π u2)`.  A draw `u1 = 0` makes
`sqrt(-2 ln u1)` non-finite. -/
def addNoiseJs (signal : List JsVal) (snrDb : ℝ) (u : ℕ → ℝ × ℝ) : List JsVal :=
  let signalPower := jdiv (signal.foldl (fun acc v => jadd acc (jmul v v)) (some 0))
    (some (signal.length : ℝ))
  let snrLinear : JsVal := some ((10 : ℝ) ^ (snrDb / 10))
  let noisePower := jdiv signalPower snrLinear
  let noiseAmplitude := jsqrt noisePower
  (List.range signal.length).map (fun i =>
    jadd (signal.getD i none)
      (jmul (jmul noiseAmplitude (jsqrt (jmul (some (-2)) (jlog (some (u i).1)))))
        (jcos (some (2 * Real.pi * (u i).2)))))

/-- Code `approximateHilbertTransform` in the finiteness model: indices `0..2` of
the result array are never assigned and stay `undefined`. -/
def hilbertJs (signal : List JsVal) : List JsVal :=
  (List.range signal.length).map (fun i =>
    if 3 ≤ i then jmul (some 0.5) (jsub (signal.getD i none) (signal.getD (i - 2) none))
    else none)

/-- The LSB waveform before noise, in the finiteness model. -/
def lsbModulatedJs (g : GenParams) : List JsVal :=
  let message : List JsVal := (List.range (numSamples g)).map (fun i => some (voiceAt g i))
  let hilbertMessage := hilbertJs message
  (List.range (numSamples g)).map (fun i =>
    jsub (jmul (message.getD i none) (some (Real.cos (2 * Real.pi * g.carrierFreq * tAt g i))))
      (jmul (hilbertMessage.getD i none)
        (some (Real.sin (2 * Real.pi * g.carrierFreq * tAt g i)))))

/-- Code `generateLSB`'s noisy real signal in the finiteness model. -/
def lsbRealSignalJs (g : GenParams) (u : ℕ → ℝ × ℝ) : List JsVal :=
  addNoiseJs (lsbModulatedJs g) g.snr u

/-!
Claim-side definitions.  Each `...Claimed` definition below follows the words
of a claim of the specification (not the code), to be compared with the
corresponding embedded definition.
-/

/-- Error kind demanded by the specification for invalid parameters. -/
inductive GenError where
  | invalidParameter

/-- The eight modulation kinds the engine knows. -/
def knownKinds : List String := ["am", "fm", "bpsk", "qpsk", "fsk", "lsb", "usb", "ssb"]

/-- Claim C2's reading of the dispatcher: an unknown modulation kind fails
with an `InvalidParameter` error and returns no signal. -/
def generateSignalClaimed (g : GenParams) (u : ℕ → ℝ × ℝ) (rnd : ℕ → ℝ)
    (modulationType : String) : Except GenError GeneratedSignal :=
  if modulationType ∈ knownKinds then Except.ok (generateSignal g u rnd modulationType)
  else Except.error GenError.invalidParameter

/-- Indices of the bins whose magnitude exceeds `peakMagnitude / 10`. -/
def hotBins (fft : FFTData) (threshold : ℝ) : Finset ℕ :=
  (Finset.range fft.magnitude.length).filter (fun i => fft.magnitude.getD i 0 > threshold)

/-- Frequencies of the bins above the threshold. -/
def hotFreqs (fft : FFTData) (threshold : ℝ) : Finset ℝ :=
  (hotBins fft threshold).image (fun i => fft.frequencies.getD i 0)

/-- Claim C4's measured span: max minus min frequency over exactly the bins
above the threshold (no bins above threshold: no measured span). -/
def measuredSpanClaimed (fft : FFTData) : ℝ :=
  if h : (hotFreqs fft (peakMagnitude fft / 10)).Nonempty then
    (hotFreqs fft (peakMagnitude fft / 10)).max' h -
      (hotFreqs fft (peakMagnitude fft / 10)).min' h
  else 0

/-- Claim C4's per-kind theoretical formulas, in terms of the message
frequency and frequency deviation parameters. -/
def theoreticalClaimed (modulationType : String)
    (symbolRate messageFreq frequencyDeviation : ℝ) : ℝ :=
  if modulationType = "am" then 2 * messageFreq
  else if modulationType = "fm" then 2 * (frequencyDeviation + messageFreq)
  else if modulationType = "bpsk" ∨ modulationType = "qpsk" then symbolRate
  else if modulationType = "fsk" then 2 * frequencyDeviation + symbolRate
  else messageFreq

/-- Claim C4's reading of `estimateBandwidth`. -/
def estimateBandwidthClaimed (fftData : Option FFTData) (modulationType : String)
    (symbolRate messageFreq frequencyDeviation : ℝ) : ℝ :=
  match fftData with
  | none => theoreticalClaimed modulationType symbolRate messageFreq frequencyDeviation
  | some fft =>
    let span := measuredSpanClaimed fft
    if span > 0 ∧ span < fft.frequencies.getD (fft.frequencies.length - 1) 0 / 2 then span
    else theoreticalClaimed modulationType symbolRate messageFreq frequencyDeviation

/-- The set of frequencies the min/max scan of the code ranges over:
`frequencies[0]` (both accumulators start there) together with the
frequencies of the bins above the threshold. -/
def bandSet (fft : FFTData) (threshold : ℝ) : Finset ℝ :=
  insert (fft.frequencies.getD 0 0) (hotFreqs fft threshold)

lemma bandSet_nonempty (fft : FFTData) (threshold : ℝ) : (bandSet fft threshold).Nonempty :=
  Finset.insert_nonempty _ _

/-- The measured span as the code actually computes it: min and max start at
`frequencies[0]`, which therefore always takes part in the span. -/
def spanMeasured (fft : FFTData) : ℝ :=
  (bandSet fft (peakMagnitude fft / 10)).max' (bandSet_nonempty _ _) -
    (bandSet fft (peakMagnitude fft / 10)).min' (bandSet_nonempty _ _)

/-- Claim C5's reading of `estimateSnr`: the residual sequence excludes the
edge samples, so its rms divides by the residual count `length − 8`. -/
def estimateSnrClaimed (signal : List ℝ) : ℝ :=
  let n := signal.length
  let signalRms := Real.sqrt ((∑ i ∈ Finset.range n, signal.getD i 0 ^ 2) / (n : ℝ))
  let residualRms := Real.sqrt
    ((∑ i ∈ Finset.Ico 4 (n - 4), residualAt signal i ^ 2) / ((n - 8 : ℕ) : ℝ))
  max 0 (min 30 (20 * Real.logb 10 (signalRms / (residualRms + 1e-10))))

/-- Amended reading of `estimateSnr`: identical to claim C5 except that the
residual power divides by the full signal length (the unset edge slots of
the JS array contribute zeros to the mean). -/
def estimateSnrAmended (signal : List ℝ) : ℝ :=
  let n := signal.length
  let signalRms := Real.sqrt ((∑ i ∈ Finset.range n, signal.getD i 0 ^ 2) / (n : ℝ))
  let residualRms := Real.sqrt
    ((∑ i ∈ Finset.Ico 4 (n - 4), residualAt signal i ^ 2) / (n : ℝ))
  max 0 (min 30 (20 * Real.logb 10 (signalRms / (residualRms + 1e-10))))

/-- Claim C7's reading of the analysis window: entries beyond the available
input are zero. -/
def fftWindowClaimed (signal : List ℝ) : List ℝ :=
  (List.range fftSize).map (fun i => if i < signal.length then signal.getD i 0 else 0)

/-!
Concrete inputs used by witnesses and counterexamples.
-/

/-- The constructor defaults of `SignalGenerator`. -/
def g0 : GenParams := ⟨44100, 1, 1000, 100, 20, 0.5, 100, 100⟩

/-- The round-trip scenario parameters of the specification:
carrierFreq 1000, symbolRate 100, snr 30, sampleRate 44100, duration 1. -/
def gBpsk : GenParams := ⟨44100, 1, 1000, 100, 30, 0.5, 100, 100⟩

/-- A small parameter set with trailing samples: 10 samples, 3 samples per
symbol, 3 symbols, so sample 9 lies past the last defined symbol. -/
def gSmall : GenParams := ⟨10, 1, 10, 3, 20, 0.5, 100, 100⟩

/-- Benign uniform draws for the Box-Muller step. -/
def u0 : ℕ → ℝ × ℝ := fun _ => (0.5, 0.5)

/-- Uniform draws whose first component is exactly `0`. -/
def uZero : ℕ → ℝ × ℝ := fun _ => (0, 0.5)

/-- Symbol draws that always fall in the lower half (BPSK bit `-1`). -/
def rnd0 : ℕ → ℝ := fun _ => 0

/-- A six-bin spectrum whose only loud bin sits at 100 Hz. -/
def fftCx : FFTData := ⟨[0, 10, 0, 0, 0, 0], [0, 100, 200, 300, 400, 500]⟩

/-- A nine-sample signal with a single spike. -/
def sSpike : List ℝ := [0, 0, 0, 0, 5, 0, 0, 0, 0]

/-- All-falsy update argument: every field is `some 0`. -/
def pZero : UpdateParams := ⟨some 0, some 0, some 0, some 0, some 0, some 0⟩

/-!
Helper lemmas.
-/

lemma rangeMap_getD {α : Type} (f : ℕ → α) {n i : ℕ} (d : α) (h : i < n) :
    ((List.range n).map f).getD i d = f i := by
  simp [List.getD, List.getElem?_map, List.getElem?_range, h]

lemma addNoise_length (s : List ℝ) (c : ℝ) (u : ℕ → ℝ × ℝ) :
    (addNoise s c u).length = s.length := by
  simp [addNoise]

lemma timeArray_length (g : GenParams) : (timeArray g).length = numSamples g := by
  simp [timeArray]

lemma generateAM_shape (g : GenParams) (u : ℕ → ℝ × ℝ) :
    (generateAM g u).time.length = numSamples g ∧
      (generateAM g u).realSignal.length = numSamples g ∧
      (generateAM g u).imagSignal.length = numSamples g := by
  refine ⟨?_, ?_, ?_⟩ <;> simp [generateAM, addNoise_length, timeArray_length]

lemma generateFM_shape (g : GenParams) (u : ℕ → ℝ × ℝ) :
    (generateFM g u).time.length = numSamples g ∧
      (generateFM g u).realSignal.length = numSamples g ∧
      (generateFM g u).imagSignal.length = numSamples g := by
  refine ⟨?_, ?_, ?_⟩ <;> simp [generateFM, addNoise_length, timeArray_length]

lemma generateBPSK_shape (g : GenParams) (u : ℕ → ℝ × ℝ) (rnd : ℕ → ℝ) :
    (generateBPSK g u rnd).time.length = numSamples g ∧
      (generateBPSK g u rnd).realSignal.length = numSamples g ∧
      (generateBPSK g u rnd).imagSignal.length = numSamples g := by
  refine ⟨?_, ?_, ?_⟩ <;>
    simp [generateBPSK, bpskModulated, addNoise_length, timeArray_length]

lemma generateQPSK_shape (g : GenParams) (u : ℕ → ℝ × ℝ) (rnd : ℕ → ℝ) :
    (generateQPSK g u rnd).time.length = numSamples g ∧
      (generateQPSK g u rnd).realSignal.length = numSamples g ∧
      (generateQPSK g u rnd).imagSignal.length = numSamples g := by
  refine ⟨?_, ?_, ?_⟩ <;>
    simp [generateQPSK, qpskReal, qpskImag, addNoise_length, timeArray_length]

lemma generateFSK_shape (g : GenParams) (u : ℕ → ℝ × ℝ) (rnd : ℕ → ℝ) :
    (generateFSK g u rnd).time.length = numSamples g ∧
      (generateFSK g u rnd).realSignal.length = numSamples g ∧
      (generateFSK g u rnd).imagSignal.length = numSamples g := by
  refine ⟨?_, ?_, ?_⟩ <;>
    simp [generateFSK, fskModulated, addNoise_length, timeArray_length]

lemma hilbert_length (s : List ℝ) : (approximateHilbertTransform s).length = s.length := by
  simp [approximateHilbertTransform]

lemma voiceSignal_length (g : GenParams) : (voiceSignal g).length = numSamples g := by
  simp [voiceSignal]

lemma ssbModulated_length (g : GenParams) (sign : ℝ) :
    (ssbModulated g sign).length = numSamples g := by
  simp [ssbModulated]

lemma generateLSB_shape (g : GenParams) (u : ℕ → ℝ × ℝ) :
    (generateLSB g u).time.length = numSamples g ∧
      (generateLSB g u).realSignal.length = numSamples g ∧
      (generateLSB g u).imagSignal.length = numSamples g := by
  refine ⟨?_, ?_, ?_⟩ <;>
    simp [generateLSB, addNoise_length, timeArray_length, ssbModulated_length,
      hilbert_length, voiceSignal_length]

lemma generateUSB_shape (g : GenParams) (u : ℕ → ℝ × ℝ) :
    (generateUSB g u).time.length = numSamples g ∧
      (generateUSB g u).realSignal.length = numSamples g ∧
      (generateUSB g u).imagSignal.length = numSamples g := by
  refine ⟨?_, ?_, ?_⟩ <;>
    simp [generateUSB, addNoise_length, timeArray_length, ssbModulated_length,
      hilbert_length, voiceSignal_length]

lemma generateSSB_shape (g : GenParams) (u : ℕ → ℝ × ℝ) (b : Bool) :
    (generateSSB g u b).time.length = numSamples g ∧
      (generateSSB g u b).realSignal.length = numSamples g ∧
      (generateSSB g u b).imagSignal.length = numSamples g := by
  refine ⟨?_, ?_, ?_⟩ <;>
    simp [generateSSB, addNoise_length, timeArray_length, ssbModulated_length,
      hilbert_length, voiceSignal_length]

lemma length_filter_range (p : ℕ → Prop) [DecidablePred p] (n : ℕ) :
    ((List.range n).filter (fun i => decide (p i))).length =
      ((Finset.range n).filter p).card := by
  induction n with
  | zero => simp
  | succ n ih =>
    rw [List.range_succ, List.filter_append, List.length_append, Finset.range_succ,
      Finset.filter_insert]
    by_cases h : p n
    · rw [if_pos h, Finset.card_insert_of_not_mem (by simp)]
      simp [h, ih]
    · rw [if_neg h]
      simp [h, ih]

lemma filter_mod_eq_image (n s : ℕ) (hs : 0 < s) :
    (Finset.range n).filter (fun i => i % s = 0 ∧ i / s < n / s) =
      (Finset.range (n / s)).image (fun k => k * s) := by
  ext x
  simp only [Finset.mem_filter, Finset.mem_range, Finset.mem_image]
  constructor
  · rintro ⟨_, hmod, hdiv⟩
    exact ⟨x / s, hdiv, Nat.div_mul_cancel (Nat.dvd_of_mod_eq_zero hmod)⟩
  · rintro ⟨k, hk, rfl⟩
    refine ⟨?_, Nat.mul_mod_left k s, by rw [Nat.mul_div_cancel _ hs]; exact hk⟩
    calc k * s < n / s * s := (Nat.mul_lt_mul_right hs).2 hk
      _ ≤ n := Nat.div_mul_le_self n s

lemma length_filter_multiples (n s : ℕ) (hs : 0 < s) :
    ((List.range n).filter (fun i => i % s = 0 ∧ i / s < n / s)).length = n / s := by
  rw [length_filter_range (fun i => i % s = 0 ∧ i / s < n / s), filter_mod_eq_image n s hs,
    Finset.card_image_of_injective _ (fun a b h => Nat.eq_of_mul_eq_mul_right hs h),
    Finset.card_range]

/-!
Claim theorems.
-/

/-- Claim C1: for every valid parameter set, `generateSignal` returns time,
real and imaginary sequences each of length exactly `numSamples`
(`numSamples = sampleRate × duration`), and the imaginary sequence is
all-zero for the AM, FM, BPSK and FSK modulation kinds. -/
theorem generateSignal_lengths (g : GenParams) (u : ℕ → ℝ × ℝ) (rnd : ℕ → ℝ)
    (kind : String) (hS : 0 < g.sampleRate) (hD : 0 < g.duration)
    (hsps : 0 < samplesPerSymbol g) :
    (generateSignal g u rnd kind).time.length = numSamples g ∧
      (generateSignal g u rnd kind).realSignal.length = numSamples g ∧
      (generateSignal g u rnd kind).imagSignal.length = numSamples g ∧
      ((kind = "am" ∨ kind = "fm" ∨ kind = "bpsk" ∨ kind = "fsk") →
        ∀ v ∈ (generateSignal g u rnd kind).imagSignal, v = 0) := by
  unfold generateSignal
  split_ifs with h1 h2 h3 h4 h5 h6 h7 h8
  · exact ⟨(generateAM_shape g u).1, (generateAM_shape g u).2.1, (generateAM_shape g u).2.2,
      fun _ v hv => by simpa [generateAM] using List.eq_of_mem_replicate hv⟩
  · exact ⟨(generateFM_shape g u).1, (generateFM_shape g u).2.1, (generateFM_shape g u).2.2,
      fun _ v hv => by simpa [generateFM] using List.eq_of_mem_replicate hv⟩
  · refine ⟨(generateBPSK_shape g u rnd).1, (generateBPSK_shape g u rnd).2.1,
      (generateBPSK_shape g u rnd).2.2, fun _ v hv => ?_⟩
    simp only [generateBPSK, List.mem_map] at hv
    obtain ⟨i, -, rfl⟩ := hv
    rfl
  · refine ⟨(generateQPSK_shape g u rnd).1, (generateQPSK_shape g u rnd).2.1,
      (generateQPSK_shape g u rnd).2.2, fun hk => absurd hk (by subst h4; decide)⟩
  · exact ⟨(generateFSK_shape g u rnd).1, (generateFSK_shape g u rnd).2.1,
      (generateFSK_shape g u rnd).2.2,
      fun _ v hv => by simpa [generateFSK] using List.eq_of_mem_replicate hv⟩
  · exact ⟨(generateLSB_shape g u).1, (generateLSB_shape g u).2.1, (generateLSB_shape g u).2.2,
      fun hk => absurd hk (by subst h6; decide)⟩
  · exact ⟨(generateUSB_shape g u).1, (generateUSB_shape g u).2.1, (generateUSB_shape g u).2.2,
      fun hk => absurd hk (by subst h7; decide)⟩
  · exact ⟨(generateSSB_shape g u false).1, (generateSSB_shape g u false).2.1,
      (generateSSB_shape g u false).2.2, fun hk => absurd hk (by subst h8; decide)⟩
  · exact ⟨(generateAM_shape g u).1, (generateAM_shape g u).2.1, (generateAM_shape g u).2.2,
      fun _ v hv => by simpa [generateAM] using List.eq_of_mem_replicate hv⟩

/-- Witness for claim C1 at the constructor defaults and kind am. -/
theorem generateSignal_lengths_witness :
    (generateSignal g0 u0 rnd0 ("am")).time.length = numSamples g0 ∧
      (generateSignal g0 u0 rnd0 ("am")).realSignal.length = numSamples g0 ∧
      (generateSignal g0 u0 rnd0 ("am")).imagSignal.length = numSamples g0 ∧
      ((("am" : String) = "am" ∨ ("am" : String) = "fm" ∨ ("am" : String) = "bpsk" ∨
          ("am" : String) = "fsk") →
        ∀ v ∈ (generateSignal g0 u0 rnd0 ("am")).imagSignal, v = 0) :=
  generateSignal_lengths g0 u0 rnd0 ("am") (by decide) (by decide) (by decide)

/-- Claim C2 as amended: for every modulation kind other than the eight known
kinds, `generateSignal` silently falls back to AM, returning exactly the
result of `generateAM`. -/
theorem generateSignal_unknown_defaults (g : GenParams) (u : ℕ → ℝ × ℝ) (rnd : ℕ → ℝ)
    (kind : String) (h : kind ∉ knownKinds) :
    generateSignal g u rnd kind = generateAM g u := by
  simp only [knownKinds, List.mem_cons, List.not_mem_nil, or_false, not_or] at h
  obtain ⟨h1, h2, h3, h4, h5, h6, h7, h8⟩ := h
  simp [generateSignal, h1, h2, h3, h4, h5, h6, h7, h8]

/-- Witness for the amended claim C2 at an unknown kind. -/
theorem generateSignal_unknown_defaults_witness :
    generateSignal g0 u0 rnd0 ("zzz") = generateAM g0 u0 :=
  generateSignal_unknown_defaults g0 u0 rnd0 ("zzz") (by decide)

/-- Counterexample to claim C2 as stated: on the unknown kind xyz the code
returns the AM signal (it silently defaults), while the claimed behavior is
an `InvalidParameter` error and no signal. -/
theorem generateSignal_xyz_counterexample :
    generateSignal g0 u0 rnd0 ("xyz") = generateAM g0 u0 ∧
      generateSignalClaimed g0 u0 rnd0 ("xyz") = Except.error GenError.invalidParameter := by
  constructor
  · simp [generateSignal]
  · simp [generateSignalClaimed, knownKinds]

/-- Claim C10: every falsy field of the `updateParameters` argument (missing,
NaN or zero) is ignored, keeping the stored value; consequently `snr` and
`modulationIndex` can never be set to `0` through `updateParameters`, and the
sampling fields it does not mention are untouched. -/
theorem updateParameters_falsy (g : GenParams) (p : UpdateParams) :
    (p.carrierFreq = none ∨ p.carrierFreq = some 0 →
      (updateParameters g p).carrierFreq = g.carrierFreq) ∧
    (p.symbolRate = none ∨ p.symbolRate = some 0 →
      (updateParameters g p).symbolRate = g.symbolRate) ∧
    (p.snr = none ∨ p.snr = some 0 → (updateParameters g p).snr = g.snr) ∧
    (p.modulationIndex = none ∨ p.modulationIndex = some 0 →
      (updateParameters g p).modulationIndex = g.modulationIndex) ∧
    (p.messageFreq = none ∨ p.messageFreq = some 0 →
      (updateParameters g p).messageFreq = g.messageFreq) ∧
    (p.frequencyDeviation = none ∨ p.frequencyDeviation = some 0 →
      (updateParameters g p).frequencyDeviation = g.frequencyDeviation) ∧
    (g.snr ≠ 0 → (updateParameters g p).snr ≠ 0) ∧
    (g.modulationIndex ≠ 0 → (updateParameters g p).modulationIndex ≠ 0) ∧
    (updateParameters g p).sampleRate = g.sampleRate ∧
    (updateParameters g p).duration = g.duration := by
  refine ⟨?_, ?_, ?_, ?_, ?_, ?_, ?_, ?_, rfl, rfl⟩
  · rintro (h | h) <;> simp [updateParameters, jsOrElse, h]
  · rintro (h | h) <;> simp [updateParameters, jsOrElseNat, h]
  · rintro (h | h) <;> simp [updateParameters, jsOrElse, h]
  · rintro (h | h) <;> simp [updateParameters, jsOrElse, h]
  · rintro (h | h) <;> simp [updateParameters, jsOrElse, h]
  · rintro (h | h) <;> simp [updateParameters, jsOrElse, h]
  · intro hg
    cases hx : p.snr with
    | none => simpa [updateParameters, jsOrElse, hx] using hg
    | some x =>
      by_cases h0 : x = 0 <;> simp [updateParameters, jsOrElse, hx, h0, hg]
  · intro hg
    cases hx : p.modulationIndex with
    | none => simpa [updateParameters, jsOrElse, hx] using hg
    | some x =>
      by_cases h0 : x = 0 <;> simp [updateParameters, jsOrElse, hx, h0, hg]

/-- Witness for claim C10: an all-zero (falsy) update leaves the defaults in
place and cannot zero out snr or the modulation index. -/
theorem updateParameters_falsy_witness :
    (updateParameters g0 pZero).carrierFreq = g0.carrierFreq ∧
      (updateParameters g0 pZero).snr ≠ 0 ∧
      (updateParameters g0 pZero).modulationIndex ≠ 0 :=
  ⟨(updateParameters_falsy g0 pZero).1 (Or.inr rfl),
    (updateParameters_falsy g0 pZero).2.2.2.2.2.2.1 (by norm_num [g0]),
    (updateParameters_falsy g0 pZero).2.2.2.2.2.2.2.1 (by norm_num [g0])⟩

/-- Claim C3: for every valid parameter set the BPSK, QPSK and FSK
constellations have length exactly
`floor(numSamples / floor(sampleRate / symbolRate)) = numSymbols`; in the
round-trip scenario (carrierFreq 1000, symbolRate 100, sampleRate 44100,
duration 1) the BPSK constellation has 100 points, each with `x ∈ {-1, 1}`
and `y = 0`. -/
theorem constellation_lengths (g : GenParams) (rnd : ℕ → ℝ)
    (hsps : 0 < samplesPerSymbol g) :
    (bpskConstellation g rnd).length = numSymbols g ∧
      (qpskConstellation g rnd).length = numSymbols g ∧
      (fskConstellation g rnd).length = numSymbols g ∧
      (bpskConstellation gBpsk rnd).length = 100 ∧
      ∀ p ∈ bpskConstellation gBpsk rnd, (p.x = 1 ∨ p.x = -1) ∧ p.y = 0 := by
  have key : ∀ g' : GenParams, 0 < samplesPerSymbol g' →
      ((List.range (numSamples g')).filter
        (fun i => i % samplesPerSymbol g' = 0 ∧
          i / samplesPerSymbol g' < numSymbols g')).length = numSymbols g' :=
    fun g' h => length_filter_multiples (numSamples g') (samplesPerSymbol g') h
  refine ⟨?_, ?_, ?_, ?_, ?_⟩
  · rw [bpskConstellation, List.length_map]
    exact key g hsps
  · rw [qpskConstellation, List.length_map]
    exact key g hsps
  · rw [fskConstellation, List.length_map]
    exact key g hsps
  · rw [bpskConstellation, List.length_map, key gBpsk (by decide)]
    decide
  · intro p hp
    simp only [bpskConstellation, List.mem_map] at hp
    obtain ⟨i, -, rfl⟩ := hp
    refine ⟨?_, rfl⟩
    unfold bpskBit
    split_ifs <;> simp

/-- Witness for claim C3 at the round-trip scenario parameters. -/
theorem constellation_lengths_witness :
    (bpskConstellation gBpsk rnd0).length = numSymbols gBpsk ∧
      (qpskConstellation gBpsk rnd0).length = numSymbols gBpsk ∧
      (fskConstellation gBpsk rnd0).length = numSymbols gBpsk ∧
      (bpskConstellation gBpsk rnd0).length = 100 ∧
      ∀ p ∈ bpskConstellation gBpsk rnd0, (p.x = 1 ∨ p.x = -1) ∧ p.y = 0 :=
  constellation_lengths gBpsk rnd0 (by decide)

/-- Claim C8 as amended: for the symbol-based kinds, every sample at index
`n ≥ numSymbols × samplesPerSymbol` is generated from a fixed default symbol
(bit `+1` for BPSK, `(1/√2, 1/√2)` for QPSK, bit `0` — the lower frequency —
for FSK), not from the last defined symbol. -/
theorem trailing_samples_default (g : GenParams) (rnd : ℕ → ℝ)
    (hsps : 0 < samplesPerSymbol g) (n : ℕ)
    (h1 : numSymbols g * samplesPerSymbol g ≤ n) (h2 : n < numSamples g) :
    (bpskModulated g rnd).getD n 0 = Real.cos (2 * Real.pi * g.carrierFreq * tAt g n) ∧
      (qpskReal g rnd).getD n 0 =
        1 / Real.sqrt 2 * Real.cos (2 * Real.pi * g.carrierFreq * tAt g n) ∧
      (qpskImag g rnd).getD n 0 =
        1 / Real.sqrt 2 * Real.sin (2 * Real.pi * g.carrierFreq * tAt g n) ∧
      (fskModulated g rnd).getD n 0 =
        Real.cos (2 * Real.pi * (g.carrierFreq - g.frequencyDeviation) * tAt g n) := by
  have hnot : ¬ (n / samplesPerSymbol g < numSymbols g) := by
    have := (Nat.le_div_iff_mul_le hsps).2 h1
    omega
  refine ⟨?_, ?_, ?_, ?_⟩
  · unfold bpskModulated
    rw [rangeMap_getD _ _ h2]
    simp [hnot]
  · unfold qpskReal
    rw [rangeMap_getD _ _ h2]
    simp [qpskSymAt, hnot]
  · unfold qpskImag
    rw [rangeMap_getD _ _ h2]
    simp [qpskSymAt, hnot]
  · unfold fskModulated
    rw [rangeMap_getD _ _ h2]
    simp [hnot]

/-- Witness for the amended claim C8: sample 9 of the small parameter set
lies past the last defined symbol and uses the fixed defaults. -/
theorem trailing_samples_default_witness :
    (bpskModulated gSmall rnd0).getD 9 0 =
        Real.cos (2 * Real.pi * gSmall.carrierFreq * tAt gSmall 9) ∧
      (qpskReal gSmall rnd0).getD 9 0 =
        1 / Real.sqrt 2 * Real.cos (2 * Real.pi * gSmall.carrierFreq * tAt gSmall 9) ∧
      (qpskImag gSmall rnd0).getD 9 0 =
        1 / Real.sqrt 2 * Real.sin (2 * Real.pi * gSmall.carrierFreq * tAt gSmall 9) ∧
      (fskModulated gSmall rnd0).getD 9 0 =
        Real.cos (2 * Real.pi * (gSmall.carrierFreq - gSmall.frequencyDeviation) *
          tAt gSmall 9) :=
  trailing_samples_default gSmall rnd0 (by decide) 9 (by decide) (by decide)

/-- The magnitude array always has `fftSize / 2` bins. -/
lemma computeFFT_magnitude_length (g : GenParams) (s : List ℝ) :
    (computeFFT g s).magnitude.length = fftSize / 2 := by
  simp [computeFFT]

/-- The frequency array always has `fftSize / 2` bins. -/
lemma computeFFT_frequencies_length (g : GenParams) (s : List ℝ) :
    (computeFFT g s).frequencies.length = fftSize / 2 := by
  simp [computeFFT]

/-- Claim C9: `computeFFT` returns magnitude and frequency sequences of equal
length `fftSize / 2 = 512`, with `frequencies[k] = k·sampleRate/fftSize`,
every magnitude non-negative, and the frequencies strictly increasing. -/
theorem computeFFT_spectrum_shape (g : GenParams) (s : List ℝ) (h : 0 < g.sampleRate) :
    fftSize / 2 = 512 ∧
      (computeFFT g s).magnitude.length = fftSize / 2 ∧
      (computeFFT g s).frequencies.length = fftSize / 2 ∧
      (∀ k, k < fftSize / 2 →
        (computeFFT g s).frequencies.getD k 0 =
          (k : ℝ) * (g.sampleRate : ℝ) / (fftSize : ℝ)) ∧
      (∀ m ∈ (computeFFT g s).magnitude, 0 ≤ m) ∧
      (computeFFT g s).frequencies.Pairwise (· < ·) := by
  refine ⟨by norm_num [fftSize], computeFFT_magnitude_length g s,
    computeFFT_frequencies_length g s, ?_, ?_, ?_⟩
  · intro k hk
    show ((List.range (fftSize / 2)).map (freqAt g)).getD k 0 = _
    rw [rangeMap_getD _ _ hk]
    rfl
  · intro m hm
    simp only [computeFFT, List.mem_map] at hm
    obtain ⟨k, -, rfl⟩ := hm
    have hfft : (0 : ℝ) < (fftSize : ℝ) := by norm_num [fftSize]
    exact div_nonneg (Real.sqrt_nonneg _) hfft.le
  · show ((List.range (fftSize / 2)).map (freqAt g)).Pairwise (· < ·)
    rw [List.pairwise_map]
    refine (List.pairwise_lt_range _).imp ?_
    intro a b hab
    have hsr : (0 : ℝ) < (g.sampleRate : ℝ) := by exact_mod_cast h
    have hfft : (0 : ℝ) < (fftSize : ℝ) := by norm_num [fftSize]
    have hnum : (a : ℝ) * (g.sampleRate : ℝ) < (b : ℝ) * (g.sampleRate : ℝ) :=
      mul_lt_mul_of_pos_right (by exact_mod_cast hab) hsr
    exact div_lt_div_of_pos_right hnum hfft

/-- Witness for claim C9 at the default parameters and an arbitrary input. -/
theorem computeFFT_spectrum_shape_witness :
    fftSize / 2 = 512 ∧
      (computeFFT g0 sSpike).magnitude.length = fftSize / 2 ∧
      (computeFFT g0 sSpike).frequencies.length = fftSize / 2 ∧
      (∀ k, k < fftSize / 2 →
        (computeFFT g0 sSpike).frequencies.getD k 0 =
          (k : ℝ) * (g0.sampleRate : ℝ) / (fftSize : ℝ)) ∧
      (∀ m ∈ (computeFFT g0 sSpike).magnitude, 0 ≤ m) ∧
      (computeFFT g0 sSpike).frequencies.Pairwise (· < ·) :=
  computeFFT_spectrum_shape g0 sSpike (by decide)

/-- Claim C7 as amended: for input shorter than `fftSize` the downsample
factor floors to `0`, so every window entry holds `signal[0]` (the window is
constant; an empty input leaves the zero fill), and a full `fftSize / 2`-bin
spectrum is still returned rather than an error. -/
theorem fftWindow_short_input (g : GenParams) (s : List ℝ) (h : s.length < fftSize) :
    (∀ i, i < fftSize → (fftWindow s).getD i 0 = s.headD 0) ∧
      (computeFFT g s).magnitude.length = fftSize / 2 := by
  constructor
  · intro i hi
    unfold fftWindow
    rw [rangeMap_getD _ _ hi, Nat.div_eq_of_lt h]
    cases s with
    | nil => simp
    | cons a t => simp
  · exact computeFFT_magnitude_length g s

/-- Witness for the amended claim C7 on a one-sample input. -/
theorem fftWindow_short_input_witness :
    (∀ i, i < fftSize → (fftWindow [5]).getD i 0 = ([5] : List ℝ).headD 0) ∧
      (computeFFT g0 [5]).magnitude.length = fftSize / 2 :=
  fftWindow_short_input g0 [5] (by norm_num [fftSize])

/-- Counterexample to claim C7 as stated: for the one-sample input `[5]`,
window entry 1 lies beyond the available input yet holds `5` (a copy of
`signal[0]`), where the claimed zero-padding would put `0`. -/
theorem fftWindow_counterexample :
    (fftWindow [5]).getD 1 0 = 5 ∧ (fftWindowClaimed [5]).getD 1 0 = 0 := by
  constructor
  · unfold fftWindow
    rw [rangeMap_getD _ _ (by norm_num [fftSize] : (1 : ℕ) < fftSize)]
    norm_num [fftSize]
  · unfold fftWindowClaimed
    rw [rangeMap_getD _ _ (by norm_num [fftSize] : (1 : ℕ) < fftSize)]
    norm_num

lemma foldl_add_sq (l : List ℝ) (c : ℝ) :
    l.foldl (fun acc v => acc + v * v) c = c + (l.map (fun v => v * v)).sum := by
  induction l generalizing c with
  | nil => simp
  | cons a t ih =>
    rw [List.foldl_cons, ih, List.map_cons, List.sum_cons]
    ring

lemma sumSquares_cons (a : ℝ) (t : List ℝ) :
    sumSquares (a :: t) = a * a + sumSquares t := by
  unfold sumSquares
  rw [List.foldl_cons, foldl_add_sq, foldl_add_sq]
  ring

lemma sumSquares_eq_sum (l : List ℝ) :
    sumSquares l = ∑ i ∈ Finset.range l.length, l.getD i 0 ^ 2 := by
  induction l with
  | nil => simp [sumSquares]
  | cons a t ih =>
    rw [sumSquares_cons, ih, List.length_cons, Finset.sum_range_succ']
    simp only [List.getD_cons_succ, List.getD_cons_zero]
    ring

lemma detrended_length (s : List ℝ) : (detrended s).length = s.length := by
  simp [detrended]

lemma sumSquares_detrended (s : List ℝ) :
    sumSquares (detrended s) = ∑ i ∈ Finset.Ico 4 (s.length - 4), residualAt s i ^ 2 := by
  rw [sumSquares_eq_sum, detrended_length]
  calc ∑ i ∈ Finset.range s.length, (detrended s).getD i 0 ^ 2
      = ∑ i ∈ Finset.range s.length,
          (if 4 ≤ i ∧ i < s.length - 4 then residualAt s i ^ 2 else 0) := by
        refine Finset.sum_congr rfl fun i hi => ?_
        unfold detrended
        rw [rangeMap_getD _ _ (Finset.mem_range.1 hi), apply_ite (fun x : ℝ => x ^ 2)]
        norm_num
    _ = ∑ i ∈ (Finset.range s.length).filter (fun i => 4 ≤ i ∧ i < s.length - 4),
          residualAt s i ^ 2 := (Finset.sum_filter _ _).symm
    _ = ∑ i ∈ Finset.Ico 4 (s.length - 4), residualAt s i ^ 2 := by
        refine Finset.sum_congr ?_ fun i _ => rfl
        ext i
        simp only [Finset.mem_filter, Finset.mem_range, Finset.mem_Ico]
        omega

/-- Claim C5 as amended: `estimateSnr` subtracts the 5-point average at
offsets −4,−2,0,+2,+4 from each non-edge sample, divides the summed squared
residual by the full signal length (the skipped edge slots still count in the
length), and returns `20·log10(rms(signal)/(√residualPower + 1e-10))` clamped
to `[0, 30]`; the result always lies in `[0, 30]`. -/
theorem estimateSnr_amended_eq (signal : List ℝ) :
    estimateSnr signal = estimateSnrAmended signal ∧
      0 ≤ estimateSnr signal ∧ estimateSnr signal ≤ 30 := by
  refine ⟨?_, ?_, ?_⟩
  · unfold estimateSnr estimateSnrAmended
    rw [sumSquares_eq_sum, sumSquares_detrended, detrended_length]
  · unfold estimateSnr
    exact le_max_left 0 _
  · unfold estimateSnr
    exact max_le (by norm_num) (min_le_left _ _)

/-- Counterexample to claim C5 as stated: on the nine-sample spike signal the
claim's residual rms (dividing by the residual count 1) yields a clamped SNR
of `0`, while the code (dividing by the full length 9) yields a strictly
positive SNR. -/
theorem estimateSnr_counterexample :
    0 < estimateSnr sSpike ∧ estimateSnrClaimed sSpike = 0 := by
  have hlen : sSpike.length = 9 := by norm_num [sSpike]
  have hsum : sumSquares sSpike = 25 := by
    norm_num [sumSquares, sSpike]
  have hres : residualAt sSpike 4 = 4 := by
    norm_num [residualAt, sSpike]
  have hico : Finset.Ico 4 5 = ({4} : Finset ℕ) := by decide
  have hres5 : ∑ i ∈ Finset.Ico 4 5, residualAt sSpike i ^ 2 = 16 := by
    rw [hico, Finset.sum_singleton, hres]
    norm_num
  have hdet : sumSquares (detrended sSpike) = 16 := by
    rw [sumSquares_detrended, hlen]
    exact hres5
  constructor
  · simp only [estimateSnr]
    rw [hsum, hdet, detrended_length, hlen]
    push_cast
    rw [show (25 : ℝ) / 9 = (5 / 3) ^ 2 by norm_num, Real.sqrt_sq (by norm_num),
      show (16 : ℝ) / 9 = (4 / 3) ^ 2 by norm_num, Real.sqrt_sq (by norm_num)]
    have hratio : (1 : ℝ) < 5 / 3 / (4 / 3 + 1e-10) := by
      rw [one_lt_div (by norm_num)]
      norm_num
    have hlog : 0 < 20 * Real.logb 10 (5 / 3 / (4 / 3 + 1e-10)) := by
      have hp : (0 : ℝ) < Real.logb 10 (5 / 3 / (4 / 3 + 1e-10)) :=
        Real.logb_pos (by norm_num) hratio
      linarith
    calc (0 : ℝ) < min 30 (20 * Real.logb 10 (5 / 3 / (4 / 3 + 1e-10))) :=
          lt_min (by norm_num) hlog
      _ ≤ max 0 (min 30 (20 * Real.logb 10 (5 / 3 / (4 / 3 + 1e-10)))) := le_max_right _ _
  · simp only [estimateSnrClaimed, hlen]
    have hsum9 : ∑ i ∈ Finset.range 9, sSpike.getD i 0 ^ 2 = 25 := by
      norm_num [Finset.sum_range_succ, sSpike]
    rw [hsum9, show (9 : ℕ) - 4 = 5 from rfl, show (9 : ℕ) - 8 = 1 from rfl, hres5]
    push_cast
    rw [show (16 : ℝ) / 1 = 4 ^ 2 by norm_num, Real.sqrt_sq (by norm_num),
      show (25 : ℝ) / 9 = (5 / 3) ^ 2 by norm_num, Real.sqrt_sq (by norm_num)]
    have hle : 5 / 3 / (4 + 1e-10) ≤ (1 : ℝ) := by
      rw [div_le_one (by norm_num)]
      norm_num
    have hlog : 20 * Real.logb 10 (5 / 3 / (4 + 1e-10)) ≤ 0 := by
      have hp : Real.logb 10 (5 / 3 / (4 + 1e-10)) ≤ 0 :=
        Real.logb_nonpos (by norm_num : (1 : ℝ) < 10)
          (by positivity : (0 : ℝ) ≤ 5 / 3 / (4 + 1e-10)) hle
      linarith
    rw [min_eq_right (by linarith : 20 * Real.logb 10 (5 / 3 / (4 + 1e-10)) ≤ 30),
      max_eq_left hlog]

lemma min'_insert_swap (a b : ℝ) (s : Finset ℝ) :
    (insert a (insert b s)).min' (Finset.insert_nonempty _ _) =
      (insert a s).min' (Finset.insert_nonempty _ _) ⊓ b := by
  rcases s.eq_empty_or_nonempty with rfl | hs
  · have h1 : (insert b (∅ : Finset ℝ)).min' (Finset.insert_nonempty _ _) = b := by simp
    have h2 : (insert a (∅ : Finset ℝ)).min' (Finset.insert_nonempty _ _) = a := by simp
    rw [Finset.min'_insert a (insert b ∅) (Finset.insert_nonempty b ∅), h1, h2]
    exact inf_comm b a
  · rw [Finset.min'_insert a (insert b s) (Finset.insert_nonempty b s),
      Finset.min'_insert b s hs, Finset.min'_insert a s hs]
    exact inf_right_comm _ _ _

lemma max'_insert_swap (a b : ℝ) (s : Finset ℝ) :
    (insert a (insert b s)).max' (Finset.insert_nonempty _ _) =
      (insert a s).max' (Finset.insert_nonempty _ _) ⊔ b := by
  rcases s.eq_empty_or_nonempty with rfl | hs
  · have h1 : (insert b (∅ : Finset ℝ)).max' (Finset.insert_nonempty _ _) = b := by simp
    have h2 : (insert a (∅ : Finset ℝ)).max' (Finset.insert_nonempty _ _) = a := by simp
    rw [Finset.max'_insert a (insert b ∅) (Finset.insert_nonempty b ∅), h1, h2]
    exact sup_comm b a
  · rw [Finset.max'_insert a (insert b s) (Finset.insert_nonempty b s),
      Finset.max'_insert b s hs, Finset.max'_insert a s hs]
    exact sup_right_comm _ _ _

lemma bandLimits_loop (fft : FFTData) (thr : ℝ) (L : ℕ) :
    (List.range L).foldl
      (fun mm i =>
        if fft.magnitude.getD i 0 > thr then
          (min mm.1 (fft.frequencies.getD i 0), max mm.2 (fft.frequencies.getD i 0))
        else mm)
      (fft.frequencies.getD 0 0, fft.frequencies.getD 0 0) =
    ((insert (fft.frequencies.getD 0 0)
        (((Finset.range L).filter (fun i => fft.magnitude.getD i 0 > thr)).image
          (fun i => fft.frequencies.getD i 0))).min' (Finset.insert_nonempty _ _),
      (insert (fft.frequencies.getD 0 0)
        (((Finset.range L).filter (fun i => fft.magnitude.getD i 0 > thr)).image
          (fun i => fft.frequencies.getD i 0))).max' (Finset.insert_nonempty _ _)) := by
  induction L with
  | zero => simp
  | succ L ih =>
    rw [List.range_succ, List.foldl_append, ih, List.foldl_cons, List.foldl_nil,
      Finset.range_succ, Finset.filter_insert]
    by_cases h : fft.magnitude.getD L 0 > thr
    · rw [if_pos h, if_pos h, Finset.image_insert]
      dsimp only
      rw [min'_insert_swap, max'_insert_swap]
    · rw [if_neg h, if_neg h]

lemma bandLimits_eq (fft : FFTData) (thr : ℝ) :
    bandLimits fft thr =
      ((bandSet fft thr).min' (bandSet_nonempty _ _),
        (bandSet fft thr).max' (bandSet_nonempty _ _)) := by
  unfold bandLimits bandSet hotFreqs hotBins
  exact bandLimits_loop fft thr fft.magnitude.length

/-- Claim C4 as amended: `estimateBandwidth` only receives the symbolRate
argument — its theoretical formulas are AM `2·(symbolRate or 100)`,
FM `2·(100 + (symbolRate or 100))`, BPSK/QPSK `symbolRate`,
FSK `200 + symbolRate`, SSB family `symbolRate or 100` (the message
frequency and frequency deviation parameters are never consulted; the 100s
are hardcoded) — and its measured span ranges over the first bin's frequency
together with the frequencies of the bins above `peakMagnitude/10`, because
both scan accumulators start at `frequencies[0]`; the measured span is
returned iff it is positive and below half of the last bin's frequency,
otherwise the theoretical value is returned. -/
theorem estimateBandwidth_amended_eq (fft : FFTData) (kind : String) (symbolRate : ℝ) :
    estimateBandwidth (some fft) kind symbolRate =
      (if 0 < spanMeasured fft ∧
          spanMeasured fft < fft.frequencies.getD (fft.frequencies.length - 1) 0 / 2 then
        spanMeasured fft
      else theoreticalBandwidth kind symbolRate) ∧
    estimateBandwidth none kind symbolRate = theoreticalBandwidth kind symbolRate := by
  constructor
  · simp only [estimateBandwidth]
    rw [bandLimits_eq]
    rfl
  · rfl

lemma span_eq_zero_of_singleton (s : Finset ℝ) (h : s.Nonempty) (x : ℝ) (hs : s = {x}) :
    s.max' h - s.min' h = 0 := by
  subst hs
  simp

/-- Counterexample to claim C4 as stated: on a six-bin spectrum whose only
loud bin sits at 100 Hz, with kind am, symbolRate 700 and messageFreq 100,
the code measures a span of 100 Hz (its min/max scan starts at the first
bin's frequency 0) and returns 100, while the claimed computation has a
zero span over exactly the above-threshold bins and returns the claimed
theoretical value 2·messageFreq = 200. -/
theorem estimateBandwidth_counterexample :
    estimateBandwidth (some fftCx) ("am") 700 = 100 ∧
      estimateBandwidthClaimed (some fftCx) ("am") 700 100 100 = 200 := by
  have hpeak : peakMagnitude fftCx = 10 := by
    norm_num [peakMagnitude, fftCx, max_def]
  have h10 : peakMagnitude fftCx / 10 = 1 := by
    rw [hpeak]
    norm_num
  constructor
  · have hband : bandLimits fftCx (peakMagnitude fftCx / 10) = (0, 100) := by
      rw [h10]
      norm_num [bandLimits, fftCx, List.range_succ, List.foldl_append, List.foldl_cons,
        List.foldl_nil, List.getD_cons_succ, List.getD_cons_zero, min_def, max_def]
    simp only [estimateBandwidth]
    rw [hband]
    norm_num [fftCx, List.getD_cons_succ, List.getD_cons_zero]
  · have hbins : hotBins fftCx (peakMagnitude fftCx / 10) = {1} := by
      rw [h10]
      have hlen6 : fftCx.magnitude.length = 6 := by norm_num [fftCx]
      unfold hotBins
      rw [hlen6]
      ext i
      simp only [Finset.mem_filter, Finset.mem_range, Finset.mem_singleton]
      constructor
      · rintro ⟨hi, hmag⟩
        interval_cases i <;>
          norm_num [fftCx, List.getD_cons_succ, List.getD_cons_zero] at hmag ⊢
      · rintro rfl
        norm_num [fftCx, List.getD_cons_succ, List.getD_cons_zero]
    have hfreqs : hotFreqs fftCx (peakMagnitude fftCx / 10) = {100} := by
      rw [hotFreqs, hbins, Finset.image_singleton]
      norm_num [fftCx, List.getD_cons_succ, List.getD_cons_zero]
    have hne : (hotFreqs fftCx (peakMagnitude fftCx / 10)).Nonempty := by
      rw [hfreqs]
      exact Finset.singleton_nonempty _
    have hspan : measuredSpanClaimed fftCx = 0 := by
      unfold measuredSpanClaimed
      rw [dif_pos hne]
      exact span_eq_zero_of_singleton _ hne 100 hfreqs
    simp only [estimateBandwidthClaimed]
    rw [hspan]
    norm_num [theoreticalClaimed]

lemma jadd_none_left (v : JsVal) : jadd none v = none := rfl

lemma jadd_none_right (v : JsVal) : jadd v none = none := by cases v <;> rfl

lemma jmul_none_left (v : JsVal) : jmul none v = none := rfl

lemma jmul_none_right (v : JsVal) : jmul v none = none := by cases v <;> rfl

lemma jsub_none_right (v : JsVal) : jsub v none = none := by cases v <;> rfl

lemma jdiv_none_left (v : JsVal) : jdiv none v = none := rfl

lemma jsqrt_none : jsqrt none = none := rfl

lemma foldl_sq_none_acc (l : List JsVal) :
    l.foldl (fun a v => jadd a (jmul v v)) none = none := by
  induction l with
  | nil => rfl
  | cons b t ih =>
    rw [List.foldl_cons, jadd_none_left]
    exact ih

lemma foldl_sq_none (l : List JsVal) (hl : none ∈ l) (acc : JsVal) :
    l.foldl (fun a v => jadd a (jmul v v)) acc = none := by
  induction l generalizing acc with
  | nil => simp at hl
  | cons b t ih =>
    rcases List.mem_cons.1 hl with hb | ht
    · rw [List.foldl_cons, ← hb, jmul_none_left, jadd_none_right]
      exact foldl_sq_none_acc t
    · rw [List.foldl_cons]
      exact ih ht _

lemma lsbModulatedJs_length (g : GenParams) : (lsbModulatedJs g).length = numSamples g := by
  simp [lsbModulatedJs]

lemma lsbModulatedJs_mem_none (g : GenParams) (h : 0 < numSamples g) :
    none ∈ lsbModulatedJs g := by
  simp only [lsbModulatedJs]
  refine List.mem_map.2 ⟨0, List.mem_range.2 h, ?_⟩
  have hhil : (hilbertJs ((List.range (numSamples g)).map
      (fun i => some (voiceAt g i)))).getD 0 none = none := by
    simp only [hilbertJs, List.length_map, List.length_range]
    rw [rangeMap_getD _ _ h]
    norm_num
  rw [hhil, jmul_none_left, jsub_none_right]

/-- Claim C6 fails on the code: in the finiteness model, every sample of the
LSB real signal is non-finite — the `undefined` Hilbert slots at indices
0..2 poison the noise-power computation, which poisons every output sample —
and independently a Box-Muller draw `u1 = 0` makes the noise term of its
sample non-finite for any input signal. -/
theorem nonfinite_propagation :
    (∀ (g : GenParams) (u : ℕ → ℝ × ℝ), 0 < numSamples g →
      ∀ i, i < numSamples g → (lsbRealSignalJs g u).getD i none = none) ∧
    (∀ (s : List JsVal) (snrDb : ℝ) (u : ℕ → ℝ × ℝ) (i : ℕ),
      i < s.length → (u i).1 = 0 → (addNoiseJs s snrDb u).getD i none = none) := by
  constructor
  · intro g u hn i hi
    unfold lsbRealSignalJs
    simp only [addNoiseJs]
    rw [lsbModulatedJs_length]
    rw [rangeMap_getD _ _ hi]
    rw [foldl_sq_none _ (lsbModulatedJs_mem_none g hn) _]
    rw [jdiv_none_left, jdiv_none_left, jsqrt_none, jmul_none_left, jmul_none_left,
      jadd_none_right]
  · intro s snrDb u i hi hu
    simp only [addNoiseJs]
    rw [rangeMap_getD _ _ hi, hu]
    rw [show jlog (some (0 : ℝ)) = none by simp [jlog]]
    rw [jmul_none_right, jsqrt_none, jmul_none_right, jmul_none_left, jadd_none_right]

/-- Witness for the failure behind claim C6: sample 0 of the LSB signal at
the default parameters is non-finite, and a `u1 = 0` draw makes sample 0 of
a one-sample noisy signal non-finite. -/
theorem nonfinite_propagation_witness :
    (lsbRealSignalJs g0 u0).getD 0 none = none ∧
      (addNoiseJs [some 1] 20 uZero).getD 0 none = none :=
  ⟨nonfinite_propagation.1 g0 u0 (by decide) 0 (by decide),
    nonfinite_propagation.2 [some 1] 20 uZero 0 (by norm_num) rfl⟩

/-- Counterexample to claim C8 as stated: with draws that make every defined
BPSK bit `-1`, the trailing sample 9 of the small parameter set equals `+1`
(the fixed default bit times a carrier value of `1`), while the last defined
symbol would have produced `-1`. -/
theorem trailing_sample_counterexample :
    (bpskModulated gSmall rnd0).getD 9 0 = 1 ∧
      bpskBit rnd0 (numSymbols gSmall - 1) *
        Real.cos (2 * Real.pi * gSmall.carrierFreq * tAt gSmall 9) = -1 := by
  have hc : Real.cos (2 * Real.pi * gSmall.carrierFreq * tAt gSmall 9) = 1 := by
    have harg : 2 * Real.pi * gSmall.carrierFreq * tAt gSmall 9 =
        ((9 : ℕ) : ℝ) * (2 * Real.pi) := by
      simp only [gSmall, tAt]
      push_cast
      ring
    rw [harg, Real.cos_nat_mul_two_pi]
  constructor
  · have h9 : (9 : ℕ) < numSamples gSmall := by decide
    have hnot : ¬ (9 / samplesPerSymbol gSmall < numSymbols gSmall) := by decide
    unfold bpskModulated
    rw [rangeMap_getD _ _ h9]
    simp [hnot, hc]
  · have h2 : numSymbols gSmall - 1 = 2 := by decide
    rw [h2, hc]
    norm_num [bpskBit, rnd0]

end




